import Mathlib

/-!
Shallow embedding of the kevin CI core: the job scheduler (`kevin/jobqueue.py`)
and the two live-stream subscribers (`kevin/httpd.py`).

Python objects are modelled by identity-carrying structures; Python dicts by
association lists; the asyncio FIFO queue by a Lean list (head = front);
effects (logging, erroring a job, signalling a future) by explicit result
values.  The cooperative scheduler loop `process_jobs` is modelled as a small
transition system whose suspension points are the loop's `await`s.
-/

namespace Kevin

/-! Section: Update protocol

kevin's update kinds (imported in `httpd.py`): `JobCreated`, `JobState` and
`StdOut` are per-job updates (subclasses of `JobUpdate`, each carrying a
`job_name`); `BuildState` and `BuildSource` are build-scoped.  `JobState`
exposes the predicates `is_errored`, `is_succeeded`, `is_finished`, which
`httpd.py` only ever calls; we carry their boolean values directly. -/

inductive Update where
  | jobCreated (job_name : String)
  | jobState (job_name : String) (errored succeeded finished : Bool) (text : String)
  | stdOut (job_name : String) (data : String)
  | buildState (payload : String)
  | buildSource (payload : String)
  deriving DecidableEq, Repr

/-- Whether an update is per-job, i.e. an instance of `JobUpdate`
(`JobCreated`, `JobState`, `StdOut` carry a `job_name`). -/
def Update.isJobUpdate : Update → Bool
  | .jobCreated _ => true
  | .jobState _ _ _ _ _ => true
  | .stdOut _ _ => true
  | .buildState _ => false
  | .buildSource _ => false

/-- An item travelling through a watcher delivery queue: either a real
`Update` or the `StopIteration` end-of-stream sentinel. -/
inductive StreamItem where
  | update (u : Update)
  | sentinel
  deriving DecidableEq, Repr

/-! Section: Builds and jobs

Python set/dict membership for `Build` and `Job` objects uses object identity
(no `__eq__` override in the repo), modelled by a numeric identity field.
A `Build` carries the jobs its `enqueue_actions` callback would submit. -/

structure Job where
  ident : Nat
  completed : Bool
  deriving DecidableEq, Repr

structure Build where
  ident : Nat
  commit_hash : String
  jobs : List Job
  deriving DecidableEq, Repr

/-! Section: scheduler state (`jobqueue.Queue.__init__`) -/

structure Queue where
  /-- all builds that are pending (a Python `set`) -/
  pending_builds : List Build
  /-- Map `build_id -> build` (a Python `dict`, keyed by commit hash) -/
  build_ids : List (String × Build)
  /-- the bounded asyncio FIFO of jobs to run, head = front -/
  job_queue : List Job
  /-- keys of the running map `self.jobs` (`job -> job_future`) -/
  jobs : List Job
  /-- was the execution of the queue cancelled -/
  cancelled : Bool
  /-- concurrency cap `max_running` -/
  max_running : Nat
  /-- Value of `CFG.max_jobs_queued`, the `maxsize` of the admission queue -/
  max_jobs_queued : Nat
  deriving DecidableEq, Repr

/-- Python `asyncio.Queue.put_nowait` raises `QueueFull` iff the queue has a positive
`maxsize` and is at (or beyond) it. -/
def Queue.queue_full (q : Queue) : Bool :=
  0 < q.max_jobs_queued && q.max_jobs_queued ≤ q.job_queue.length

/-- Effect of one `add_job` call: either nothing visible, or
`job.error("overloaded; job was dropped.")`. -/
inductive AddJobEffect where
  | none
  | errored (msg : String)
  deriving DecidableEq, Repr

/-- Model of `Queue.add_job`: completed jobs are not enqueued; otherwise a
non-blocking `put_nowait`, and on `QueueFull` the job is errored. -/
def Queue.add_job (q : Queue) (job : Job) : Queue × AddJobEffect :=
  if job.completed then
    (q, .none)
  else if q.queue_full then
    (q, .errored "overloaded; job was dropped.")
  else
    ({ q with job_queue := q.job_queue ++ [job] }, .none)

/-- Association-list update, matching `self.build_ids[k] = b`. -/
def dictSet (m : List (String × Build)) (k : String) (b : Build) :
    List (String × Build) :=
  (k, b) :: m.filter (fun p => p.1 ≠ k)

/-- Model of `Queue.add_build`: no-op when the build is already pending; otherwise
record it and invoke the build's `enqueue_actions` callback (which calls
`add_job` on the queue).  The boolean reports whether the callback ran.
The callback is passed explicitly since its body lives in `build.py`. -/
def Queue.add_build (q : Queue) (build : Build)
    (enqueue_actions : Queue → Queue) : Queue × Bool :=
  if build ∈ q.pending_builds then
    (q, false)
  else
    let q1 := { q with
      pending_builds := build :: q.pending_builds,
      build_ids := dictSet q.build_ids build.commit_hash build }
    (enqueue_actions q1, true)

/-- Modelled from the spec: the body of `Build.enqueue_actions` (in
`build.py`, outside the embedded sources) — the build "can call `add_job`
for each of its jobs", i.e. it submits every job of the build in order. -/
def Build.enqueue_actions (build : Build) (q : Queue) : Queue :=
  build.jobs.foldl (fun acc j => (acc.add_job j).1) q

/-- Model of `Queue.remove_build`: `del self.build_ids[build.commit_hash]` then
`self.pending_builds.remove(build)`; each raises `KeyError` when absent. -/
def Queue.remove_build (q : Queue) (build : Build) : Except String Queue :=
  if q.build_ids.any (fun p => p.1 = build.commit_hash) then
    if build ∈ q.pending_builds then
      Except.ok { q with
        build_ids := q.build_ids.filter (fun p => p.1 ≠ build.commit_hash),
        pending_builds := q.pending_builds.erase build }
    else
      Except.error "KeyError"
  else
    Except.error "KeyError"

/-- Effect of one `cancel_job` call: the unknown-job diagnostic, or a
`.cancel()` signal on the job's future. -/
inductive CancelJobEffect where
  | loggedUnknown
  | signalled
  deriving DecidableEq, Repr

/-- Model of `Queue.cancel_job`: if the job is not in the running map, only log;
otherwise signal its future.  Queue state is untouched either way. -/
def Queue.cancel_job (q : Queue) (job : Job) : Queue × CancelJobEffect :=
  if job ∈ q.jobs then (q, .signalled) else (q, .loggedUnknown)

/-! Section: Queue.cancel

`cancel()` snapshots `len(self.jobs)`, sets the cancelled flag, returns at
once when nothing runs; otherwise it calls `.cancel()` on every running
future and `await asyncio.gather(..., return_exceptions=True)`s them, so it
resumes only once every one of those futures has settled, with each
outcome captured as a value.  We model the settled outcome of each running
future explicitly: `gather` yields `CancelledError` for a task that ended
via cancellation, the task's value or raised exception otherwise. -/

inductive Outcome where
  /-- the future ended as cancelled: `gather` returns `CancelledError` -/
  | cancelledErr
  /-- the future finished normally with some value -/
  | value (v : Nat)
  /-- the future raised an exception, captured by `return_exceptions=True` -/
  | exc (e : String)
  deriving DecidableEq, Repr

/-- What one `cancel()` call did.  `settled_all` records that the call
resumed only after every captured future settled (i.e. it gathered all of
them); `cancels` is the reported `len(cancels)`. -/
structure CancelResult where
  cancelled_flag : Bool
  signalled : List Job
  settled_all : Bool
  cancels : Nat
  deriving DecidableEq, Repr

/-- Model of `Queue.cancel`, as a function of the running map together with the
settled outcome each running future eventually has. -/
def Queue.cancel (running : List (Job × Outcome)) : CancelResult :=
  let to_cancel := running.length
  if to_cancel = 0 then
    { cancelled_flag := true, signalled := [], settled_all := false,
      cancels := 0 }
  else
    { cancelled_flag := true
      signalled := running.map Prod.fst
      settled_all := true
      cancels := (running.filter (fun p => p.2 = Outcome.cancelledErr)).length }

/-! Section: The scheduler loop `process_jobs` as a transition system

`process_jobs` is a single cooperative coroutine; its suspension points are
`await self.job_queue.get()` and `await asyncio.wait(..., FIRST_COMPLETED)`.
The program counter:
  * `atTop`  — about to evaluate `while not self.cancelled`;
  * `atGet`  — passed the test, suspended in `job_queue.get()`;
  * `atWait` — runlimit reached, suspended in `asyncio.wait`;
  * `stopped` — the loop exited.
Dequeue + task creation + insertion into `self.jobs` + the runlimit check
run without suspension, hence form one atomic step.  Job completions
(`job_done`, which deletes the job from the running map) and the public
mutators can interleave at suspension points; we let them fire at any step,
a sound over-approximation. -/

inductive LoopPC where
  | atTop
  | atGet
  | atWait
  | stopped
  deriving DecidableEq, Repr

structure Sched where
  job_queue : List Job
  jobs : List Job
  cancelled : Bool
  max_running : Nat
  max_jobs_queued : Nat
  pc : LoopPC
  deriving DecidableEq, Repr

/-- Initial scheduler state: fresh `Queue(max_running)` with the loop about
to run. -/
def Sched.init (max_running max_jobs_queued : Nat) : Sched :=
  { job_queue := [], jobs := [], cancelled := false,
    max_running := max_running, max_jobs_queued := max_jobs_queued,
    pc := .atTop }

/-- One step of the cooperative system. -/
inductive SchedStep : Sched → Sched → Prop where
  /-- The test `while not self.cancelled` observes a set flag: the loop exits. -/
  | stopTest (s : Sched) :
      s.pc = .atTop → s.cancelled = true →
      SchedStep s { s with pc := .stopped }
  /-- The test `while not self.cancelled` passes: suspend in `job_queue.get()`. -/
  | passTest (s : Sched) :
      s.pc = .atTop → s.cancelled = false →
      SchedStep s { s with pc := .atGet }
  /-- Step for `get()` returning the front job; it is started and recorded in
  `self.jobs`; then `if len(self.jobs) >= self.max_running or self.cancelled`
  decides whether to suspend in `asyncio.wait`. -/
  | dispatch (s : Sched) (j : Job) (rest : List Job) :
      s.pc = .atGet → s.job_queue = j :: rest →
      SchedStep s { s with
        job_queue := rest,
        jobs := s.jobs ++ [j],
        pc := if s.max_running ≤ (s.jobs ++ [j]).length || s.cancelled
              then .atWait else .atTop }
  /-- a running job settles: `job_done` removes it from the running map;
  if the loop was parked in `asyncio.wait(FIRST_COMPLETED)` it wakes. -/
  | complete (s : Sched) (j : Job) :
      j ∈ s.jobs →
      SchedStep s { s with
        jobs := s.jobs.erase j,
        pc := if s.pc = .atWait then .atTop else s.pc }
  /-- a producer calls `add_job` (only `job_queue` can change). -/
  | addJob (s : Sched) (j : Job) :
      SchedStep s { s with
        job_queue :=
          if j.completed then s.job_queue
          else if 0 < s.max_jobs_queued &&
                  s.max_jobs_queued ≤ s.job_queue.length then s.job_queue
          else s.job_queue ++ [j] }
  /-- Step for `cancel()` setting the cancelled flag. -/
  | setCancel (s : Sched) :
      SchedStep s { s with cancelled := true }

/-- States reachable from a given start state. -/
inductive SchedReachable (s0 : Sched) : Sched → Prop where
  | refl : SchedReachable s0 s0
  | step {s t : Sched} : SchedReachable s0 s → SchedStep s t →
      SchedReachable s0 t

/-! Section: WebSocketHandler (`httpd.py`)

`get_parameter` returns the decoded single value of a URL parameter, or
`None` when it is absent (or not given exactly once); so a filter
definition is an `Option String`. -/

/-- Helper for Python `s.split(",")` on the characters of the string:
splits at every comma, keeping empty pieces (so the empty string yields
`[""]`). -/
def split_commas_aux : List Char → List Char → List String
  | [], acc => [String.mk acc.reverse]
  | c :: rest, acc =>
    if c = ',' then
      String.mk acc.reverse :: split_commas_aux rest []
    else
      split_commas_aux rest (c :: acc)

/-- Python `s.split(",")`. -/
def split_commas (s : String) : List String :=
  split_commas_aux s.data []

/-- Model of `WebSocketHandler.open`'s inner `get_filter`: `if not filter_def`
(i.e. `None` or the empty string) accept everything, else accept exactly
the names in the comma-separated list `filter_def.split(",")`. -/
def get_filter (filter_def : Option String) : String → Bool :=
  match filter_def with
  | Option.none => fun _ => true
  | Option.some s =>
    if s = "" then fun _ => true
    else fun job_name => (split_commas s).contains job_name

/-- What `WebSocketHandler.on_update` does with one delivered item. -/
inductive WsAction where
  /-- Call `self.close()` on the `StopIteration` sentinel -/
  | closeConn
  /-- nothing written -/
  | ignore
  /-- Call `self.write_message(update.json())` -/
  | send (u : Update)
  deriving DecidableEq, Repr

/-- Model of `WebSocketHandler.on_update`: sentinel closes; `JobCreated` is dropped;
`JobState` goes through `state_filter`; any other `JobUpdate` through
`filter_`; `BuildState`/`BuildSource` are never filtered. -/
def ws_on_update (state_filter filter_ : String → Bool) :
    StreamItem → WsAction
  | .sentinel => .closeConn
  | .update u =>
    match u with
    | .jobCreated _ => .ignore
    | .jobState n e su f t =>
        if state_filter n then .send (.jobState n e su f t) else .ignore
    | .stdOut n d =>
        if filter_ n then .send (.stdOut n d) else .ignore
    | .buildState p => .send (.buildState p)
    | .buildSource p => .send (.buildSource p)

/-! Section: PlainStreamHandler (`httpd.py`)

The text stream handler: parameter/lookup validation in `get`, a private
tornado `Queue` per subscriber fed by `on_update`, and the `watch_job`
drain loop. -/

/-- Result of `PlainStreamHandler.get`: either a single diagnostic write
followed by `return` (no watcher ever registered, and no error status is
set, so the response stays 200), or the success path that registers the
watcher on the job and starts the drain loop. -/
inductive GetResult where
  | diagnostic (line : String)
  | streaming (project_name build_id job_name : String)
  deriving DecidableEq, Repr

/-- The world `PlainStreamHandler.get` consults: `CFG.projects` (known
project names), `get_build` (project name × hash → build) and the build's
`jobs` dict (the job names it owns). -/
structure StreamEnv where
  projects : List String
  builds : List ((String × String) × List String)
  deriving DecidableEq, Repr

/-- Model of `PlainStreamHandler.get`.  Each query parameter arrives as the list of
its values; `self.request.query_arguments[name][0]` raises
`KeyError`/`IndexError` when the parameter is missing or empty, answered by
one fixed diagnostic line.  Unknown project, build or job likewise yield
one diagnostic line. -/
def plain_get (env : StreamEnv)
    (project_args hash_args job_args : List String) : GetResult :=
  match project_args.head? with
  | Option.none => .diagnostic "no project given\n"
  | Option.some project_name =>
  match hash_args.head? with
  | Option.none => .diagnostic "no build hash given\n"
  | Option.some build_id =>
  match job_args.head? with
  | Option.none => .diagnostic "no job given\n"
  | Option.some job_name =>
  if ¬ env.projects.contains project_name then
    .diagnostic "unknown project requested\n"
  else
    match env.builds.lookup (project_name, build_id) with
    | Option.none =>
        .diagnostic ("no such build: project " ++ project_name ++
          " [" ++ build_id ++ "]\n")
    | Option.some job_names =>
        if job_names.contains job_name then
          .streaming project_name build_id job_name
        else
          .diagnostic ("unknown job in project " ++ project_name ++
            " [" ++ build_id ++ "]: " ++ job_name ++ "\n")

/-- Model of `PlainStreamHandler.on_update`: `self.queue.put(update)` — append to
the private FIFO. -/
def plain_on_update (queue : List StreamItem) (item : StreamItem) :
    List StreamItem :=
  queue ++ [item]

/-- Model of `PlainStreamHandler.on_connection_close`: enqueue the sentinel. -/
def plain_on_connection_close (queue : List StreamItem) : List StreamItem :=
  plain_on_update queue .sentinel

/-- Modelled from the spec: the watched entity's delivery side
(`Build`/`Job` watcher fan-out, in `build.py`/`job.py`, outside the
embedded sources) hands each published `Update` to `on_update` in
publication order and the sentinel last, exactly once. -/
def published (us : List Update) : List StreamItem :=
  us.map StreamItem.update ++ [StreamItem.sentinel]

/-- The queue contents after the delivery side pushed `items` through
`on_update` into an initially empty subscriber queue. -/
def queue_after (items : List StreamItem) : List StreamItem :=
  items.foldl plain_on_update []

/-- The body writes `watch_job` performs for one dequeued update:
`StdOut` data verbatim; a `JobState` as one colored line when errored /
succeeded / otherwise-finished; nothing for a non-terminal `JobState` or
any other update kind. -/
def render_update : Update → List String
  | .stdOut _ data => [data]
  | .jobState _ errored succeeded finished text =>
      if errored then ["\x1b[31merror:\x1b[m " ++ text ++ "\n"]
      else if succeeded then ["\x1b[32msuccess:\x1b[m " ++ text ++ "\n"]
      else if finished then ["\x1b[31mfailed:\x1b[m " ++ text ++ "\n"]
      else []
  | _ => []

/-- The items `watch_job`'s loop dequeues from the subscriber queue: it
consumes in FIFO order and breaks right after taking the sentinel. -/
def drained : List StreamItem → List StreamItem
  | [] => []
  | .sentinel :: _ => [.sentinel]
  | .update u :: rest => .update u :: drained rest

/-- Model of `PlainStreamHandler.watch_job` on the given queue contents: `none`
while no sentinel is queued (the loop would still be suspended in
`queue.get()`), otherwise the response writes and the number of
`yield self.flush()` executions.  A full iteration ends in a flush; the
sentinel iteration breaks before flushing and the loop returns
`self.finish()`. -/
def watch_job : List StreamItem → Option (List String × Nat)
  | [] => Option.none
  | .sentinel :: _ => Option.some ([], 0)
  | .update u :: rest =>
      (watch_job rest).map (fun r => (render_update u ++ r.1, r.2 + 1))

/-- Model of `PlainStreamHandler.on_finish`: unregister from the job iff one was
resolved (`self.job is not None`). -/
def plain_on_finish (job : Option Job) : Bool :=
  job.isSome

/-! Section: helper lemmas -/

theorem foldl_plain_on_update (items : List StreamItem) :
    ∀ acc : List StreamItem, items.foldl plain_on_update acc = acc ++ items := by
  induction items with
  | nil => intro acc; simp
  | cons i rest ih =>
      intro acc
      simp only [List.foldl_cons, ih, plain_on_update]
      simp

theorem drained_published (us : List Update) :
    drained (us.map StreamItem.update ++ [StreamItem.sentinel]) =
      us.map StreamItem.update ++ [StreamItem.sentinel] := by
  induction us with
  | nil => rfl
  | cons u rest ih => simpa [drained] using ih

theorem add_job_fst_pending (q : Queue) (j : Job) :
    ((q.add_job j).1).pending_builds = q.pending_builds := by
  unfold Queue.add_job
  split
  · rfl
  · split <;> rfl

theorem foldl_add_job_pending (js : List Job) :
    ∀ q : Queue,
      (js.foldl (fun acc j => (acc.add_job j).1) q).pending_builds =
        q.pending_builds := by
  induction js with
  | nil => intro q; rfl
  | cons j rest ih =>
      intro q
      simpa [add_job_fst_pending] using ih (q.add_job j).1

theorem enqueue_actions_pending (b : Build) (q : Queue) :
    (b.enqueue_actions q).pending_builds = q.pending_builds := by
  simpa [Build.enqueue_actions] using foldl_add_job_pending b.jobs q

/-! Section: claim theorems -/

/-- C2. For a single watcher of an entity, the per-subscriber queue after
the entity published its updates followed by the sentinel holds exactly the
items in publication order (`on_update` appends, so the queue is FIFO);
the drain loop dequeues them in enqueue order; the sentinel is observed
last and exactly once; and a client disconnect
(`on_connection_close`) enqueues the sentinel behind every already-queued
update. -/
theorem watcher_observes_publication_order
    (us : List Update) (q : List StreamItem) :
    queue_after (published us) = published us ∧
    drained (queue_after (published us)) =
      us.map StreamItem.update ++ [StreamItem.sentinel] ∧
    (drained (queue_after (published us))).getLast? =
      Option.some StreamItem.sentinel ∧
    (drained (queue_after (published us))).count StreamItem.sentinel = 1 ∧
    plain_on_connection_close q = q ++ [StreamItem.sentinel] := by
  have hq : queue_after (published us) = published us := by
    simpa [queue_after] using foldl_plain_on_update (published us) []
  have hd : drained (queue_after (published us)) =
      us.map StreamItem.update ++ [StreamItem.sentinel] := by
    rw [hq]; exact drained_published us
  refine ⟨hq, hd, ?_, ?_, rfl⟩
  · rw [hd]; simp
  · rw [hd]
    simp [List.count_append, List.count_eq_zero]

/-- C4. Model of `cancel()`: it sets the cancelled flag; it signals
cancellation of every job in the running map; its result is a function of
the settled outcomes of all of those jobs (it gathers them with
`return_exceptions=True`, capturing rather than propagating), and it
reports as "ended via cancellation" exactly the jobs whose settled outcome
was a cancellation; the reported count plus the count of jobs that settled
some other way is the whole running map; with an empty running map it
returns immediately after setting the flag, without waiting. -/
theorem cancel_settles_and_counts (running : List (Job × Outcome)) :
    (Queue.cancel running).cancelled_flag = true ∧
    (Queue.cancel running).signalled = running.map Prod.fst ∧
    (Queue.cancel running).cancels =
      (running.filter (fun p => p.2 = Outcome.cancelledErr)).length ∧
    (Queue.cancel running).cancels +
      (running.filter (fun p => ¬ p.2 = Outcome.cancelledErr)).length =
      running.length ∧
    (running ≠ [] → (Queue.cancel running).settled_all = true) ∧
    (running = [] →
      Queue.cancel running =
        { cancelled_flag := true, signalled := [], settled_all := false,
          cancels := 0 }) := by
  have key : (running.filter (fun p => p.2 = Outcome.cancelledErr)).length +
      (running.filter (fun p => ¬ p.2 = Outcome.cancelledErr)).length =
      running.length := by
    have h2 := List.length_eq_length_filter_add (l := running)
      (fun p => decide (p.2 = Outcome.cancelledErr))
    simp only [decide_not]
    omega
  by_cases h : running = []
  · subst h
    refine ⟨rfl, rfl, rfl, rfl, ?_, fun _ => rfl⟩
    intro hne; exact absurd rfl hne
  · have hlen : ¬ running.length = 0 := by
      simpa [List.length_eq_zero] using h
    have hc : Queue.cancel running =
        { cancelled_flag := true, signalled := running.map Prod.fst,
          settled_all := true,
          cancels :=
            (running.filter (fun p => p.2 = Outcome.cancelledErr)).length } := by
      unfold Queue.cancel
      exact if_neg hlen
    rw [hc]
    exact ⟨rfl, rfl, rfl, key, fun _ => rfl, fun habs => absurd habs h⟩

/-- Witness for C4 at a concrete running map with one cancelled and one
self-finished job: the reported count is 1 and the call waited for all
futures to settle. -/
theorem cancel_settles_and_counts_witness :
    (Queue.cancel [(⟨0, false⟩, Outcome.cancelledErr),
                   (⟨1, false⟩, Outcome.value 7)]).cancels = 1 ∧
    (Queue.cancel [(⟨0, false⟩, Outcome.cancelledErr),
                   (⟨1, false⟩, Outcome.value 7)]).settled_all = true := by
  have h := cancel_settles_and_counts
    [(⟨0, false⟩, Outcome.cancelledErr), (⟨1, false⟩, Outcome.value 7)]
  exact ⟨h.2.2.1.trans (by decide), h.2.2.2.2.1 (by decide)⟩

/-- C6. Model of `add_build` is idempotent by identity: when the build is
already in the pending set, the call returns the state unchanged (pending
set, commit-hash map and job queue included) and does not invoke the
build's enqueue-actions callback; consequently calling `add_build` twice
with the same build runs its job submissions only once: the second call is
a no-op. -/
theorem add_build_idempotent_by_identity :
    (∀ (q : Queue) (b : Build) (f : Queue → Queue),
      b ∈ q.pending_builds → q.add_build b f = (q, false)) ∧
    (∀ (q : Queue) (b : Build),
      ((q.add_build b b.enqueue_actions).1).add_build b b.enqueue_actions =
        ((q.add_build b b.enqueue_actions).1, false)) := by
  have hmem : ∀ (q : Queue) (b : Build) (f : Queue → Queue),
      b ∈ q.pending_builds → q.add_build b f = (q, false) := by
    intro q b f hb
    simp [Queue.add_build, hb]
  refine ⟨hmem, ?_⟩
  intro q b
  by_cases hb : b ∈ q.pending_builds
  · rw [hmem q b b.enqueue_actions hb]
    exact hmem q b b.enqueue_actions hb
  · have hfst : (q.add_build b b.enqueue_actions).1 =
        b.enqueue_actions { q with
          pending_builds := b :: q.pending_builds,
          build_ids := dictSet q.build_ids b.commit_hash b } := by
      simp [Queue.add_build, hb]
    apply hmem
    rw [hfst, enqueue_actions_pending]
    exact List.mem_cons_self b q.pending_builds

/-- Witness for C6 at a concrete already-pending build: the call leaves
the queue untouched and reports that the callback did not run. -/
theorem add_build_idempotent_by_identity_witness :
    (⟨0, "h0", []⟩ : Build) ∈
      (⟨[⟨0, "h0", []⟩], [("h0", ⟨0, "h0", []⟩)], [], [], false, 1, 4⟩ :
        Queue).pending_builds ∧
    Queue.add_build
        ⟨[⟨0, "h0", []⟩], [("h0", ⟨0, "h0", []⟩)], [], [], false, 1, 4⟩
        ⟨0, "h0", []⟩ id =
      (⟨[⟨0, "h0", []⟩], [("h0", ⟨0, "h0", []⟩)], [], [], false, 1, 4⟩,
       false) :=
  ⟨by decide,
   add_build_idempotent_by_identity.1
     ⟨[⟨0, "h0", []⟩], [("h0", ⟨0, "h0", []⟩)], [], [], false, 1, 4⟩
     ⟨0, "h0", []⟩ id (by decide)⟩

/-- C10. Model of `remove_build` on an untracked build is not a silent
no-op: when the build's commit hash is missing from the commit-hash map,
or the build is missing from the pending set, the call raises `KeyError`;
when both tracking entries are present it removes both without error. -/
theorem remove_build_untracked_raises (q : Queue) (b : Build) :
    ((q.build_ids.any (fun p => p.1 = b.commit_hash) = false ∨
        b ∉ q.pending_builds) →
      q.remove_build b = Except.error "KeyError") ∧
    (q.build_ids.any (fun p => p.1 = b.commit_hash) = true →
      b ∈ q.pending_builds →
      q.remove_build b = Except.ok { q with
        build_ids := q.build_ids.filter (fun p => p.1 ≠ b.commit_hash),
        pending_builds := q.pending_builds.erase b }) := by
  constructor
  · rintro (hhash | hpend)
    · simp [Queue.remove_build, hhash]
    · by_cases hhash : q.build_ids.any (fun p => p.1 = b.commit_hash)
      · simp [Queue.remove_build, hhash, hpend]
      · simp [Queue.remove_build, hhash]
  · intro hhash hpend
    simp [Queue.remove_build, hhash, hpend]

/-- Witness for C10: removing a build whose hash was never registered
raises `KeyError`, and removing a fully registered build succeeds and
drops both entries. -/
theorem remove_build_untracked_raises_witness :
    Queue.remove_build ⟨[], [], [], [], false, 1, 4⟩ ⟨0, "h0", []⟩ =
      Except.error "KeyError" ∧
    Queue.remove_build
        ⟨[⟨0, "h0", []⟩], [("h0", ⟨0, "h0", []⟩)], [], [], false, 1, 4⟩
        ⟨0, "h0", []⟩ =
      Except.ok ⟨[], [], [], [], false, 1, 4⟩ := by
  constructor
  · exact (remove_build_untracked_raises ⟨[], [], [], [], false, 1, 4⟩
      ⟨0, "h0", []⟩).1 (Or.inl (by decide))
  · have h := (remove_build_untracked_raises
      ⟨[⟨0, "h0", []⟩], [("h0", ⟨0, "h0", []⟩)], [], [], false, 1, 4⟩
      ⟨0, "h0", []⟩).2 (by decide) (by decide)
    rw [h]
    rfl

/-- C9. Model of `cancel_job` on a job not in the running map: it only logs
the unknown-job diagnostic and returns the state unchanged (the queued
entry, the running map and the cancelled flag are untouched, and nothing
is raised); a still-queued job stays in the admission queue, and the
scheduler can still dispatch it into the running map later. -/
theorem cancel_job_unknown_noop (q : Queue) (j : Job) (h : j ∉ q.jobs) :
    q.cancel_job j = (q, CancelJobEffect.loggedUnknown) ∧
    (j ∈ q.job_queue → j ∈ (q.cancel_job j).1.job_queue) ∧
    (∀ (s : Sched) (rest : List Job), s.pc = LoopPC.atGet →
      s.job_queue = j :: rest → ∃ t, SchedStep s t ∧ j ∈ t.jobs) := by
  have hq : q.cancel_job j = (q, CancelJobEffect.loggedUnknown) := by
    simp [Queue.cancel_job, h]
  refine ⟨hq, ?_, ?_⟩
  · intro hmem; rw [hq]; exact hmem
  · intro s rest hpc hqueue
    refine ⟨_, SchedStep.dispatch s j rest hpc hqueue, ?_⟩
    simp

/-- Witness for C9 at a concrete state: the job is not running, and the
call is a pure no-op that logs. -/
theorem cancel_job_unknown_noop_witness :
    (⟨1, false⟩ : Job) ∉
      (⟨[], [], [⟨1, false⟩], [], false, 1, 4⟩ : Queue).jobs ∧
    Queue.cancel_job ⟨[], [], [⟨1, false⟩], [], false, 1, 4⟩ ⟨1, false⟩ =
      (⟨[], [], [⟨1, false⟩], [], false, 1, 4⟩, CancelJobEffect.loggedUnknown) :=
  ⟨by decide,
   (cancel_job_unknown_noop ⟨[], [], [⟨1, false⟩], [], false, 1, 4⟩
      ⟨1, false⟩ (by decide)).1⟩

/-- The leading ANSI escape of a rendered status line: the color is set by
the first five characters (e.g. red or green) of the format string. -/
def line_color (line : String) : String := line.take 5

/-- C5 counterexample.  The claim reads a present filter parameter as
accepting exactly the names in its comma-separated list; but `get_filter`
tests `if not filter_def`, which is also true for a present-but-empty
parameter, so `filter=` (the empty string) accepts every job name even
though its comma-separated list containing only the empty name does not contain, e.g., `"x"`. -/
theorem ws_filter_empty_string_counterexample :
    ¬ (get_filter (Option.some "") "x" =
        (split_commas "").contains "x") := by
  decide

/-- C5 (amended).  The structured live-stream subscriber suppresses every
`JobCreated`; forwards a `JobState` iff its job name passes the
state filter; forwards every other per-job (`JobUpdate`) event iff its job
name passes the general filter; always forwards `BuildState` and
`BuildSource` unfiltered; an absent — or present but empty — filter
parameter yields a filter accepting every job name, and a present
non-empty one accepts exactly the names in its comma-separated list. -/
theorem ws_on_update_filtering (sf gf : Option String)
    (n text d p s : String) (e su fi : Bool) :
    ws_on_update (get_filter sf) (get_filter gf)
        (StreamItem.update (Update.jobCreated n)) = WsAction.ignore ∧
    ws_on_update (get_filter sf) (get_filter gf)
        (StreamItem.update (Update.jobState n e su fi text)) =
      (if get_filter sf n then WsAction.send (Update.jobState n e su fi text)
       else WsAction.ignore) ∧
    ws_on_update (get_filter sf) (get_filter gf)
        (StreamItem.update (Update.stdOut n d)) =
      (if get_filter gf n then WsAction.send (Update.stdOut n d)
       else WsAction.ignore) ∧
    ws_on_update (get_filter sf) (get_filter gf)
        (StreamItem.update (Update.buildState p)) =
      WsAction.send (Update.buildState p) ∧
    ws_on_update (get_filter sf) (get_filter gf)
        (StreamItem.update (Update.buildSource p)) =
      WsAction.send (Update.buildSource p) ∧
    get_filter Option.none n = true ∧
    get_filter (Option.some "") n = true ∧
    (s ≠ "" → get_filter (Option.some s) n = (split_commas s).contains n) := by
  refine ⟨rfl, rfl, rfl, rfl, rfl, rfl, rfl, ?_⟩
  intro hs
  simp [get_filter, hs]

/-- Witness for C5 at Scenario B inputs: with `state_filter=build,test`, a
state change of the job named `lint` is suppressed while `lint` raw output
passes the unset general filter. -/
theorem ws_on_update_filtering_witness :
    ("build,test" : String) ≠ "" ∧
    get_filter (Option.some "build,test") "lint" =
      (split_commas "build,test").contains "lint" ∧
    ws_on_update (get_filter (Option.some "build,test"))
        (get_filter Option.none)
        (StreamItem.update (Update.jobState "lint" false false false "s")) =
      WsAction.ignore ∧
    ws_on_update (get_filter (Option.some "build,test"))
        (get_filter Option.none)
        (StreamItem.update (Update.stdOut "lint" "d")) =
      WsAction.send (Update.stdOut "lint" "d") := by
  have h := ws_on_update_filtering (Option.some "build,test") Option.none
    "lint" "s" "d" "p" "build,test" false false false
  refine ⟨by decide, h.2.2.2.2.2.2.2 (by decide), ?_, ?_⟩
  · exact h.2.1.trans (by decide)
  · exact h.2.2.1.trans (by decide)

/-! Section: watch_job rendering lemmas -/

theorem watch_job_published (us : List Update) :
    watch_job (us.map StreamItem.update ++ [StreamItem.sentinel]) =
      Option.some ((us.map render_update).flatten, us.length) := by
  induction us with
  | nil => rfl
  | cons u rest ih => simp [watch_job, ih]

theorem watch_job_no_sentinel (us : List Update) :
    watch_job (us.map StreamItem.update) = Option.none := by
  induction us with
  | nil => rfl
  | cons u rest ih => simp [watch_job, ih]

/-- C7 counterexample.  The claim renders a finished-but-neither state "as
a failure in a third" color, distinct from the errored and the succeeded
colors; but the `failed:` line opens with the very escape `\x1b[31m` the
`error:` line uses, so at the concrete finished-but-neither update below
the failure color is not distinct from the errored color. -/
theorem watch_job_failed_color_counterexample :
    ¬ (line_color
          ((render_update (Update.jobState "j" false false true "t")).headD "")
        ≠ line_color
          ((render_update (Update.jobState "j" true false true "t")).headD "")
       ∧ line_color
          ((render_update (Update.jobState "j" false false true "t")).headD "")
        ≠ line_color
          ((render_update (Update.jobState "j" false true true "t")).headD "")) :=
  fun h => h.1 (by decide)

/-- C7 (amended).  In the text-stream drain loop a `StdOut` update is
written verbatim; a `JobState` update renders as one colored line —
errored in one color, succeeded in another, and any finished-but-neither
state as a failure with a distinct prefix but in the same color as the
errored line (not a third color); non-terminal `JobState` updates produce
no output; the response is flushed once per update-processing iteration;
the loop exits exactly on dequeueing the sentinel — never before a
sentinel arrives — after which the response is finalized and `on_finish`
unregisters the watcher from the job. -/
theorem watch_job_rendering (us : List Update) (n text d : String)
    (e su fi : Bool) (j : Job) :
    watch_job (us.map StreamItem.update ++ [StreamItem.sentinel]) =
      Option.some ((us.map render_update).flatten, us.length) ∧
    watch_job (us.map StreamItem.update) = Option.none ∧
    render_update (Update.stdOut n d) = [d] ∧
    render_update (Update.jobState n e su fi text) =
      (if e then ["\x1b[31merror:\x1b[m " ++ text ++ "\n"]
       else if su then ["\x1b[32msuccess:\x1b[m " ++ text ++ "\n"]
       else if fi then ["\x1b[31mfailed:\x1b[m " ++ text ++ "\n"]
       else []) ∧
    line_color "\x1b[31merror:\x1b[m " ≠ line_color "\x1b[32msuccess:\x1b[m " ∧
    line_color "\x1b[31mfailed:\x1b[m " = line_color "\x1b[31merror:\x1b[m " ∧
    plain_on_finish (Option.some j) = true := by
  refine ⟨watch_job_published us, watch_job_no_sentinel us, rfl, ?_,
    by decide, by decide, rfl⟩
  simp only [render_update]

/-- Witness for C7 at Scenario C: the job emits one output chunk and a
succeeded state; the client sees the chunk verbatim, then one
success-colored line, with a flush after each of the two iterations, and
the stream ends. -/
theorem watch_job_rendering_witness :
    watch_job
        [StreamItem.update (Update.stdOut "compile" "compiling...\n"),
         StreamItem.update (Update.jobState "compile" false true true "done"),
         StreamItem.sentinel] =
      Option.some (["compiling...\n", "\x1b[32msuccess:\x1b[m done\n"], 2) :=
  ((watch_job_rendering
      [Update.stdOut "compile" "compiling...\n",
       Update.jobState "compile" false true true "done"]
      "n" "t" "d" false false false ⟨0, false⟩).1).trans (by decide)

/-! Section: plain_get analysis -/

/-- Whether the `get` path registered the handler as a watcher: only the
streaming branch reaches `self.job.watch(self)`; every diagnostic branch
returns first. -/
def watcher_registered : GetResult → Bool
  | .streaming _ _ _ => true
  | .diagnostic _ => false

/-- HTTP status of the produced response: `PlainStreamHandler.get` never
calls `set_status` or `send_error` on any branch, so tornado's default 200
stands. -/
def response_status : GetResult → Nat
  | .streaming _ _ _ => 200
  | .diagnostic _ => 200

theorem plain_get_characterization (env : StreamEnv)
    (pa ha ja : List String) :
    (∃ p b j, plain_get env pa ha ja = GetResult.streaming p b j ∧
      pa.head? = Option.some p ∧ ha.head? = Option.some b ∧
      ja.head? = Option.some j ∧ env.projects.contains p = true ∧
      ∃ job_names, env.builds.lookup (p, b) = Option.some job_names ∧
        job_names.contains j = true) ∨
    (∃ body, plain_get env pa ha ja = GetResult.diagnostic (body ++ "\n")) := by
  have hcat : ("]" : String) ++ "\n" = "]\n" := by decide
  rcases hpa : pa.head? with _ | p
  · refine Or.inr ⟨"no project given", ?_⟩
    have h1 : plain_get env pa ha ja =
        GetResult.diagnostic "no project given\n" := by
      simp only [plain_get, hpa]
    rw [h1]; decide
  rcases hha : ha.head? with _ | b
  · refine Or.inr ⟨"no build hash given", ?_⟩
    have h1 : plain_get env pa ha ja =
        GetResult.diagnostic "no build hash given\n" := by
      simp only [plain_get, hpa, hha]
    rw [h1]; decide
  rcases hja : ja.head? with _ | j
  · refine Or.inr ⟨"no job given", ?_⟩
    have h1 : plain_get env pa ha ja =
        GetResult.diagnostic "no job given\n" := by
      simp only [plain_get, hpa, hha, hja]
    rw [h1]; decide
  by_cases hproj : env.projects.contains p
  · have hproj2 : p ∈ env.projects := by simpa using hproj
    rcases hlook : env.builds.lookup (p, b) with _ | job_names
    · refine Or.inr ⟨"no such build: project " ++ p ++ " [" ++ b ++ "]", ?_⟩
      simp [plain_get, hpa, hha, hja, hproj2, hlook, String.append_assoc,
        hcat]
    · by_cases hjob : job_names.contains j
      · have hjob2 : j ∈ job_names := by simpa using hjob
        exact Or.inl ⟨p, b, j,
          by simp [plain_get, hpa, hha, hja, hproj2, hlook, hjob2],
          rfl, rfl, rfl, hproj, job_names, hlook, hjob⟩
      · have hjob2 : j ∉ job_names := by simpa using hjob
        refine Or.inr
          ⟨"unknown job in project " ++ p ++ " [" ++ b ++ "]: " ++ j, ?_⟩
        simp [plain_get, hpa, hha, hja, hproj2, hlook, hjob2,
          String.append_assoc]
  · have hproj2 : p ∉ env.projects := by simpa using hproj
    refine Or.inr ⟨"unknown project requested", ?_⟩
    have h1 : plain_get env pa ha ja =
        GetResult.diagnostic "unknown project requested\n" := by
      simp [plain_get, hpa, hha, hja, hproj2]
    rw [h1]; decide

/-- C8.  Every text-stream request with a missing `project`, `hash` or
`job` parameter, or naming an unknown project, build or job, is answered
by one newline-terminated diagnostic line as the whole body, with no
watcher ever registered; the success path requires all three parameters
present and resolvable; and no branch produces an HTTP error status. -/
theorem plain_get_failure_single_diagnostic (env : StreamEnv)
    (pa ha ja : List String) :
    (∀ p b j, plain_get env pa ha ja = GetResult.streaming p b j →
      pa.head? = Option.some p ∧ ha.head? = Option.some b ∧
      ja.head? = Option.some j ∧ env.projects.contains p = true ∧
      ∃ job_names, env.builds.lookup (p, b) = Option.some job_names ∧
        job_names.contains j = true) ∧
    ((pa.head? = Option.none ∨ ha.head? = Option.none ∨
        ja.head? = Option.none ∨
        (∀ p, pa.head? = Option.some p → env.projects.contains p = false) ∨
        (∀ p b, pa.head? = Option.some p → ha.head? = Option.some b →
          env.builds.lookup (p, b) = Option.none) ∨
        (∀ p b j job_names, pa.head? = Option.some p →
          ha.head? = Option.some b → ja.head? = Option.some j →
          env.builds.lookup (p, b) = Option.some job_names →
          job_names.contains j = false)) →
      ∃ body, plain_get env pa ha ja = GetResult.diagnostic (body ++ "\n") ∧
        watcher_registered (plain_get env pa ha ja) = false) ∧
    response_status (plain_get env pa ha ja) = 200 := by
  have hchar := plain_get_characterization env pa ha ja
  refine ⟨?_, ?_, ?_⟩
  · intro p b j hres
    rcases hchar with ⟨p', b', j', heq, rest⟩ | ⟨body, heq⟩
    · rw [hres] at heq
      cases heq
      exact rest
    · rw [hres] at heq
      cases heq
  · intro hbad
    rcases hchar with ⟨p', b', j', heq, hpa, hha, hja, hproj, jn, hlook, hjob⟩
      | ⟨body, heq⟩
    · exfalso
      rcases hbad with h | h | h | h | h | h
      · rw [hpa] at h; cases h
      · rw [hha] at h; cases h
      · rw [hja] at h; cases h
      · rw [h p' hpa] at hproj; cases hproj
      · rw [h p' b' hpa hha] at hlook; cases hlook
      · rw [h p' b' j' jn hpa hha hja hlook] at hjob; cases hjob
    · exact ⟨body, heq, by rw [heq]; rfl⟩
  · cases hres : plain_get env pa ha ja <;> rfl

/-- Witness for C8 at concrete inputs: a fully resolvable request reaches
the streaming branch (discharging the success-path hypothesis), and a
request with no `project` parameter yields the fixed diagnostic with no
watcher registered. -/
theorem plain_get_failure_single_diagnostic_witness :
    ((⟨["demo"], [(("demo", "abc"), ["compile"])]⟩ : StreamEnv).projects.contains
        "demo" = true ∧
      (["compile"] : List String).head? = Option.some "compile") ∧
    plain_get ⟨["demo"], [(("demo", "abc"), ["compile"])]⟩ [] ["abc"]
        ["compile"] = GetResult.diagnostic "no project given\n" ∧
    watcher_registered
        (plain_get ⟨["demo"], [(("demo", "abc"), ["compile"])]⟩ [] ["abc"]
          ["compile"]) = false := by
  have hres := (plain_get_failure_single_diagnostic
      ⟨["demo"], [(("demo", "abc"), ["compile"])]⟩
      ["demo"] ["abc"] ["compile"]).1 "demo" "abc" "compile" (by decide)
  exact ⟨⟨hres.2.2.2.1, hres.2.2.1⟩, by decide, by decide⟩

/-! Section: scheduler invariant -/

/-- Invariant of the scheduler loop: the running map never exceeds the
cap, and strictly below the cap whenever the loop is not parked in
`asyncio.wait`. -/
def SchedInv (s : Sched) : Prop :=
  0 < s.max_running ∧
  s.jobs.length ≤ s.max_running ∧
  (s.pc ≠ LoopPC.atWait → s.jobs.length < s.max_running)

theorem schedInv_init (m k : Nat) (hm : 0 < m) : SchedInv (Sched.init m k) :=
  ⟨hm, Nat.zero_le m, fun _ => hm⟩

theorem schedStep_max_running {s t : Sched} (h : SchedStep s t) :
    t.max_running = s.max_running := by
  cases h <;> rfl

theorem schedInv_preserved {s t : Sched} (hst : SchedStep s t)
    (hinv : SchedInv s) : SchedInv t := by
  obtain ⟨hpos, hle, hlt⟩ := hinv
  cases hst with
  | stopTest hpc hc =>
      exact ⟨hpos, hle, fun _ => hlt (by simp [hpc])⟩
  | passTest hpc hc =>
      exact ⟨hpos, hle, fun _ => hlt (by simp [hpc])⟩
  | dispatch j rest hpc hq =>
      have hstrict : s.jobs.length < s.max_running := hlt (by simp [hpc])
      refine ⟨hpos, by simp; omega, ?_⟩
      intro hne
      by_cases hcond :
          (decide (s.max_running ≤ (s.jobs ++ [j]).length) || s.cancelled)
            = true
      · refine absurd ?_ hne
        show (if (decide (s.max_running ≤ (s.jobs ++ [j]).length) ||
            s.cancelled) = true then LoopPC.atWait else LoopPC.atTop) =
          LoopPC.atWait
        rw [if_pos hcond]
      · simp only [Bool.or_eq_true, decide_eq_true_eq, not_or] at hcond
        have := hcond.1
        simp only [List.length_append, List.length_singleton]
        simp only [List.length_append, List.length_singleton] at this
        omega
  | complete j hj =>
      have herase : (s.jobs.erase j).length = s.jobs.length - 1 :=
        List.length_erase_of_mem hj
      have hposlen : 0 < s.jobs.length := List.length_pos_of_mem hj
      refine ⟨hpos, by simp only [herase]; omega,
        fun _ => by simp only [herase]; omega⟩
  | addJob j =>
      exact ⟨hpos, hle, hlt⟩
  | setCancel =>
      exact ⟨hpos, hle, hlt⟩

theorem schedInv_reachable (m k : Nat) (hm : 0 < m) {s : Sched}
    (hr : SchedReachable (Sched.init m k) s) : SchedInv s := by
  induction hr with
  | refl => exact schedInv_init m k hm
  | step hr hst ih => exact schedInv_preserved hst ih

theorem sched_max_running_reachable (m k : Nat) {s : Sched}
    (hr : SchedReachable (Sched.init m k) s) : s.max_running = m := by
  induction hr with
  | refl => rfl
  | step hr hst ih => rw [schedStep_max_running hst, ih]

theorem sched_atWait_exit {s t : Sched} (hpc : s.pc = LoopPC.atWait)
    (hst : SchedStep s t) :
    (t.pc = LoopPC.atWait ∧ t.jobs = s.jobs) ∨
    (t.pc = LoopPC.atTop ∧ t.jobs.length < s.jobs.length) := by
  cases hst with
  | stopTest hpc2 hc => simp [hpc] at hpc2
  | passTest hpc2 hc => simp [hpc] at hpc2
  | dispatch j rest hpc2 hq => simp [hpc] at hpc2
  | complete j hj =>
      right
      have herase : (s.jobs.erase j).length = s.jobs.length - 1 :=
        List.length_erase_of_mem hj
      have hposlen : 0 < s.jobs.length := List.length_pos_of_mem hj
      exact ⟨by simp [hpc], by simp only [herase]; omega⟩
  | addJob j => exact Or.inl ⟨hpc, rfl⟩
  | setCancel => exact Or.inl ⟨hpc, rfl⟩

/-- C1.  In every state the scheduler can reach from a fresh queue with a
positive concurrency cap `m`, the running map holds at most `m` jobs;
whenever the loop is anywhere but suspended in `asyncio.wait` the running
map is strictly below the cap (so the admission that fills the last slot
necessarily parks the loop in the wait); and from the parked state the
only step that changes the loop's position is the completion of a running
job, which strictly shrinks the running map — no dequeue can happen while
parked. -/
theorem process_jobs_respects_concurrency_cap (m k : Nat) (hm : 0 < m)
    (s : Sched) (hr : SchedReachable (Sched.init m k) s) :
    s.jobs.length ≤ m ∧
    (s.pc ≠ LoopPC.atWait → s.jobs.length < m) ∧
    (s.pc = LoopPC.atWait → ∀ t, SchedStep s t →
      (t.pc = LoopPC.atWait ∧ t.jobs = s.jobs) ∨
      (t.pc = LoopPC.atTop ∧ t.jobs.length < s.jobs.length)) := by
  have hinv := schedInv_reachable m k hm hr
  have hmax := sched_max_running_reachable m k hr
  refine ⟨?_, ?_, fun hpc t hst => sched_atWait_exit hpc hst⟩
  · rw [← hmax]; exact hinv.2.1
  · intro h; rw [← hmax]; exact hinv.2.2 h

/-- Witness for C1 along a concrete trace with cap 1: submit one job,
pass the loop test, dispatch it; the reached state has the running map at
the cap and the loop parked in the wait. -/
theorem process_jobs_respects_concurrency_cap_witness :
    0 < 1 ∧
    (⟨[], [⟨0, false⟩], false, 1, 5, LoopPC.atWait⟩ : Sched).jobs.length
      ≤ 1 := by
  have h0 : SchedReachable (Sched.init 1 5) (Sched.init 1 5) :=
    SchedReachable.refl
  have h1 : SchedReachable (Sched.init 1 5)
      ⟨[⟨0, false⟩], [], false, 1, 5, LoopPC.atTop⟩ :=
    SchedReachable.step h0 (SchedStep.addJob (Sched.init 1 5) ⟨0, false⟩)
  have h2 : SchedReachable (Sched.init 1 5)
      ⟨[⟨0, false⟩], [], false, 1, 5, LoopPC.atGet⟩ :=
    SchedReachable.step h1 (SchedStep.passTest _ rfl rfl)
  have h3 : SchedReachable (Sched.init 1 5)
      ⟨[], [⟨0, false⟩], false, 1, 5, LoopPC.atWait⟩ :=
    SchedReachable.step h2 (SchedStep.dispatch _ ⟨0, false⟩ [] rfl rfl)
  exact ⟨Nat.one_pos,
    (process_jobs_respects_concurrency_cap 1 5 Nat.one_pos _ h3).1⟩

/-- C3.  Model of `add_job` on an already-completed job is a no-op that
neither enqueues nor errors it; on a full admission queue (at capacity
`CFG.max_jobs_queued`, positive) it leaves the whole state unchanged and
errors the job with the overload message, so the job is never enqueued; in
every case the call leaves the running map untouched and never suspends
(it is a total function of the state); and a job that is in neither the
admission queue nor the running map cannot enter the running map by any
scheduler step. -/
theorem add_job_overload_rejection (q : Queue) (jb : Job) :
    (jb.completed = true → q.add_job jb = (q, AddJobEffect.none)) ∧
    (jb.completed = false → 0 < q.max_jobs_queued →
      q.job_queue.length = q.max_jobs_queued →
      q.add_job jb =
        (q, AddJobEffect.errored "overloaded; job was dropped.")) ∧
    ((q.add_job jb).1.jobs = q.jobs) ∧
    (∀ s t : Sched, SchedStep s t → jb ∉ s.jobs → jb ∉ s.job_queue →
      jb ∉ t.jobs) := by
  refine ⟨?_, ?_, ?_, ?_⟩
  · intro hc; simp [Queue.add_job, hc]
  · intro hc hpos hlen
    have hfull : q.queue_full = true := by
      simp [Queue.queue_full, hpos, hlen]
    simp [Queue.add_job, hc, hfull]
  · unfold Queue.add_job
    split
    · rfl
    · split <;> rfl
  · intro s t hst hjobs hqueue
    cases hst with
    | stopTest h1 h2 => exact hjobs
    | passTest h1 h2 => exact hjobs
    | dispatch j2 rest h1 h2 =>
        intro hmem
        rcases List.mem_append.mp hmem with h | h
        · exact hjobs h
        · have hj : jb = j2 := by simpa using h
          apply hqueue
          rw [h2, hj]
          exact List.mem_cons_self j2 rest
    | complete j2 hj2 =>
        intro hmem
        exact hjobs (List.mem_of_mem_erase hmem)
    | addJob j2 => exact hjobs
    | setCancel => exact hjobs

/-- Witness for C3 at a full queue of capacity 1: the uncompleted job is
rejected with the overload error and the state is unchanged. -/
theorem add_job_overload_rejection_witness :
    ((⟨1, false⟩ : Job).completed = false ∧
      (⟨[], [], [⟨0, false⟩], [], false, 1, 1⟩ : Queue).job_queue.length =
        (⟨[], [], [⟨0, false⟩], [], false, 1, 1⟩ : Queue).max_jobs_queued) ∧
    Queue.add_job ⟨[], [], [⟨0, false⟩], [], false, 1, 1⟩ ⟨1, false⟩ =
      (⟨[], [], [⟨0, false⟩], [], false, 1, 1⟩,
        AddJobEffect.errored "overloaded; job was dropped.") :=
  ⟨⟨rfl, rfl⟩,
   (add_job_overload_rejection ⟨[], [], [⟨0, false⟩], [], false, 1, 1⟩
      ⟨1, false⟩).2.1 rfl (by decide) rfl⟩

end Kevin
